import Mathlib

/-!
# Verification of `custom_plotting.py`

A shallow embedding of the module's two functions, `spaghetti_plot` and
`ribbon_plot`, together with proofs of the behavioural properties claimed
for them.

Modelling conventions:
* numpy arrays of floats become `List ℚ` / `List (List ℚ)`; the functions
  only move values around and compare/interpolate them, so exact rational
  arithmetic is a faithful model of the numerics involved
  (`np.percentile` with the default linear interpolation, `np.linspace`,
  `np.median`);
* Python keyword-option dicts become association lists `Dict` over a small
  value type `PyVal` (numbers, booleans, `None`) with Python truthiness;
* drawing calls (`ax.plot`, `plt.plot`, `plt.step`, `plt.fill_between`)
  append `Artifact` values; each function returns a record holding its
  (unchanged or mutated) array/dict arguments, the list of artifacts it
  drew in order, and an outcome (`Except PyErr Unit`) modelling normal
  return versus a raised exception;
* `np.random.choice(range(k), n)` is modelled by an oracle
  `rng : Nat → Nat → List Nat` passed to `spaghetti_plot`; the numpy
  contract is that `rng k n` has length `n` with every entry `< k`;
* Python's strict evaluation of `fill_kwargs.pop('alpha', 1 / n_ribbons)`
  means the default is computed first, so `n_ribbons = 0` raises
  `ZeroDivisionError` before the pop happens.
-/

namespace CustomPlotting

/-- A Python value as it occurs in the style-option dicts of this module:
a number, a boolean, or `None`. -/
inductive PyVal where
  | num (q : ℚ)
  | pybool (b : Bool)
  | pynone
  deriving DecidableEq, Repr

/-- Python truthiness of a `PyVal` (`bool(v)`). -/
def PyVal.truthy : PyVal → Bool
  | .num q => decide (q ≠ 0)
  | .pybool b => b
  | .pynone => false

/-- Numeric reading of a `PyVal`, used where the code feeds a dict value to a
numeric parameter (the `alpha` of `fill_between`). -/
def PyVal.toNum : PyVal → ℚ
  | .num q => q
  | .pybool b => if b then 1 else 0
  | .pynone => 0

/-- A Python `dict` of keyword options, as an association list. -/
abbrev Dict := List (String × PyVal)

/-- `d[k]` lookup in a keyword dict. -/
def Dict.get? (d : Dict) (k : String) : Option PyVal :=
  (d.find? (fun p => p.1 == k)).map Prod.snd

/-- `d.pop(k, dflt)`: return the value stored under `k` (or `dflt` when `k`
is absent) together with the dict with `k` removed.  A Python dict holds each
key at most once, so removing every binding of `k` is the same operation. -/
def Dict.pop (d : Dict) (k : String) (dflt : PyVal) : PyVal × Dict :=
  ((Dict.get? d k).getD dflt, d.filter (fun p => p.1 != k))

/-- One artifact added to a matplotlib axes: a line (`plot`), a step line
(`step`), or a filled region (`fill_between`). -/
inductive Artifact where
  | line (xs ys : List ℚ) (color : Option String) (style : Dict)
  | stepLine (xs ys : List ℚ) (color : Option String) (style : Dict)
  | fill (xs lower upper : List ℚ) (alpha : ℚ) (color : String) (style : Dict)
  deriving DecidableEq, Repr

/-- Whether an artifact is a filled region. -/
def Artifact.isFill : Artifact → Bool
  | .fill _ _ _ _ _ _ => true
  | _ => false

/-- Whether an artifact is a line artifact (continuous or step). -/
def Artifact.isLineArt : Artifact → Bool
  | .line _ _ _ _ => true
  | .stepLine _ _ _ _ => true
  | _ => false

/-- The `(is-step, ys)` data of a line artifact, `none` on a fill. -/
def Artifact.lineData? : Artifact → Option (Bool × List ℚ)
  | .line _ ys _ _ => some (false, ys)
  | .stepLine _ ys _ _ => some (true, ys)
  | .fill _ _ _ _ _ _ => Option.none

/-- The `(lower, upper)` curves of a fill artifact, `none` on a line. -/
def Artifact.fillBounds? : Artifact → Option (List ℚ × List ℚ)
  | .fill _ lo up _ _ _ => some (lo, up)
  | _ => Option.none

/-- The `(lower, upper)` curve pairs of the fill artifacts of a canvas,
in drawing order. -/
def fillsOf (arts : List Artifact) : List (List ℚ × List ℚ) :=
  arts.filterMap Artifact.fillBounds?

/-- `np.linspace(start, stop, num)` with the default `endpoint=True`. -/
def linspace (start stop : ℚ) (num : Nat) : List ℚ :=
  if num = 0 then []
  else if num = 1 then [start]
  else (List.range num).map (fun i : Nat => start + (i : ℚ) * (stop - start) / ((num : ℚ) - 1))

/-- `np.linspace(start, stop, num, endpoint=False)`. -/
def linspaceNoEnd (start stop : ℚ) (num : Nat) : List ℚ :=
  (List.range num).map (fun i : Nat => start + (i : ℚ) * (stop - start) / (num : ℚ))

/-- Number of rows of a 2-d array (`y.shape[0]`). -/
def shape0 (y : List (List ℚ)) : Nat := y.length

/-- Number of columns of a (rectangular) 2-d array (`y.shape[1]`). -/
def shape1 (y : List (List ℚ)) : Nat := (y.headD []).length

/-- Linear interpolation of a (sorted) sequence at a fractional position:
with `i = ⌊pos⌋`, the value `s[i] + (pos - i) * (s[i+1] - s[i])`, where a
read past the end of `s` degenerates to the value at `i` (numpy never reads
past the end because `pos ≤ n - 1`, and at `pos = n - 1` the fractional part
is zero). -/
def interp (s : List ℚ) (pos : ℚ) : ℚ :=
  s.getD (Int.floor pos).toNat 0
    + (pos - ((Int.floor pos).toNat : ℚ))
      * (s.getD ((Int.floor pos).toNat + 1) (s.getD (Int.floor pos).toNat 0)
          - s.getD (Int.floor pos).toNat 0)

/-- `np.percentile` of an already sorted sequence, default (linear)
interpolation: the value at position `q / 100 * (n - 1)`. -/
def percSorted (s : List ℚ) (q : ℚ) : ℚ :=
  interp s (q * ((s.length : ℚ) - 1) / 100)

/-- `np.percentile(l, q)` for a 1-d array `l`: sort, then interpolate. -/
def percentile (l : List ℚ) (q : ℚ) : ℚ :=
  percSorted (l.insertionSort (· ≤ ·)) q

/-- Column `j` of a rectangular 2-d array. -/
def column (y : List (List ℚ)) (j : Nat) : List ℚ :=
  y.map (fun row => row.getD j 0)

/-- `np.percentile(y, q, axis=0)`: the percentile of each column, giving a
curve of length `m = shape1 y`. -/
def percentileAxis0 (y : List (List ℚ)) (q : ℚ) (m : Nat) : List ℚ :=
  (List.range m).map (fun j => percentile (column y j) q)

/-- `np.median` of a 1-d array: middle element of the sorted data, or the
mean of the two middle elements when the length is even. -/
def medianOf (l : List ℚ) : ℚ :=
  let s := l.insertionSort (· ≤ ·)
  let n := s.length
  if n % 2 = 1 then s.getD (n / 2) 0
  else (s.getD (n / 2 - 1) 0 + s.getD (n / 2) 0) / 2

/-- `np.median(y, axis=0)`. -/
def medianAxis0 (y : List (List ℚ)) (m : Nat) : List ℚ :=
  (List.range m).map (fun j => medianOf (column y j))

/-- The exceptions this module can raise or propagate. -/
inductive PyErr where
  | valueError (msg : String)
  | zeroDivisionError
  | indexError
  deriving DecidableEq, Repr

instance : DecidableEq (Except PyErr Unit) := fun a b =>
  match a, b with
  | .ok (), .ok () => isTrue rfl
  | .ok (), .error _ => isFalse (fun hc => Except.noConfusion hc)
  | .error _, .ok () => isFalse (fun hc => Except.noConfusion hc)
  | .error e, .error f =>
    if h : e = f then isTrue (by rw [h])
    else isFalse (fun hc => h (by injection hc))

/-- The message of the configuration error raised by `spaghetti_plot`. -/
def cfgMsg : String := "Exactly one of `n_samples` or `indices` must be specified"

/-- Arguments of `spaghetti_plot`.  `n_samples` is `Option Nat` so that a
caller passing `None` (as well as the default `20` and an explicit `0`) is
representable; `bool(n_samples)` is `pyTruthyNat`. -/
structure SpagArgs where
  x : List ℚ
  y : List (List ℚ)
  n_samples : Option Nat := some 20
  indices : Option (List Nat) := Option.none
  plot_kwargs : Dict := []

/-- `bool(n_samples)` for an optional integer argument. -/
def pyTruthyNat : Option Nat → Bool
  | some n => decide (n ≠ 0)
  | Option.none => false

/-- Post-state of a `spaghetti_plot` call: the array arguments as the call
leaves them, the artifacts drawn in order, and the outcome. -/
structure SpagResult where
  x : List ℚ
  y : List (List ℚ)
  drawn : List Artifact
  outcome : Except PyErr Unit
  deriving DecidableEq, Repr

/-- The drawing loop of `spaghetti_plot`: `for idx in indices:
ax.plot(x, y[idx], **plot_kwargs)`.  An out-of-range row index raises
`IndexError` at that iteration, keeping the lines already drawn. -/
def drawLoop (x : List ℚ) (y : List (List ℚ)) (kw : Dict) :
    List Nat → List Artifact × Except PyErr Unit
  | [] => ([], .ok ())
  | idx :: rest =>
    match y.get? idx with
    | some row =>
      let r := drawLoop x y kw rest
      (Artifact.line x row Option.none kw :: r.1, r.2)
    | Option.none => ([], .error .indexError)

/-- Shallow embedding of `spaghetti_plot` (src/custom_plotting.py, lines
4–44).  `rng k n` stands for `np.random.choice(range(k), n)`; the code calls
it with `k = y.shape[1]`. -/
def spaghetti_plot (a : SpagArgs) (rng : Nat → Nat → List Nat) : SpagResult :=
  let has_indices : Bool := a.indices.isSome
  let has_samples : Bool := pyTruthyNat a.n_samples
  if has_indices == has_samples then
    { x := a.x, y := a.y, drawn := [], outcome := .error (.valueError cfgMsg) }
  else
    let idxs := if has_samples then rng (shape1 a.y) (a.n_samples.getD 0)
                else a.indices.getD []
    let r := drawLoop a.x a.y a.plot_kwargs idxs
    { x := a.x, y := a.y, drawn := r.1, outcome := r.2 }

/-- Arguments of `ribbon_plot`. -/
structure RibbonArgs where
  x : List ℚ
  y : List (List ℚ)
  n_ribbons : Nat := 10
  percentile_min : ℚ := 1
  percentile_max : ℚ := 99
  ribbon_color : String := "r"
  plot_median : Bool := true
  line_color : String := "k"
  fill_kwargs : Dict := []
  line_kwargs : Dict := []

/-- Post-state of a `ribbon_plot` call: arrays and dicts as the call leaves
them, artifacts drawn in order, and the outcome. -/
structure RibbonResult where
  x : List ℚ
  y : List (List ℚ)
  fill_kwargs : Dict
  line_kwargs : Dict
  drawn : List Artifact
  outcome : Except PyErr Unit
  deriving DecidableEq, Repr

/-- Shallow embedding of `ribbon_plot` (src/custom_plotting.py, lines
47–103).  Following the source order: the two percentile ladders are
computed first (an empty `q` list is fine for numpy, so `n_ribbons = 0`
raises nothing there); then `fill_kwargs.pop('alpha', 1 / n_ribbons)`
evaluates its default argument strictly, so `n_ribbons = 0` raises
`ZeroDivisionError` before anything is drawn and before the pop mutates the
dict; the fill loop consumes `zip(perc1, perc2)`; and the optional median
line pops `step` from `fill_kwargs` (not `line_kwargs`). -/
def ribbon_plot (a : RibbonArgs) : RibbonResult :=
  let m := shape1 a.y
  let qs1 := linspaceNoEnd a.percentile_min 50 a.n_ribbons
  let qs2 := (linspace 50 a.percentile_max (a.n_ribbons + 1)).drop 1
  let perc1 := qs1.map (fun q => percentileAxis0 a.y q m)
  let perc2 := qs2.map (fun q => percentileAxis0 a.y q m)
  if a.n_ribbons = 0 then
    { x := a.x, y := a.y, fill_kwargs := a.fill_kwargs, line_kwargs := a.line_kwargs,
      drawn := [], outcome := .error .zeroDivisionError }
  else
    let dflt : PyVal := .num (1 / (a.n_ribbons : ℚ))
    let popA := Dict.pop a.fill_kwargs "alpha" dflt
    let alpha := popA.1.toNum
    let fk2 := popA.2
    let fills := (List.zip perc1 perc2).map
      (fun p => Artifact.fill a.x p.1 p.2 alpha a.ribbon_color fk2)
    if a.plot_median then
      let popS := Dict.pop fk2 "step" PyVal.pynone
      let med := medianAxis0 a.y m
      let art := if popS.1.truthy then Artifact.stepLine a.x med (some a.line_color) a.line_kwargs
                 else Artifact.line a.x med (some a.line_color) a.line_kwargs
      { x := a.x, y := a.y, fill_kwargs := popS.2, line_kwargs := a.line_kwargs,
        drawn := fills ++ [art], outcome := .ok () }
    else
      { x := a.x, y := a.y, fill_kwargs := fk2, line_kwargs := a.line_kwargs,
        drawn := fills, outcome := .ok () }

/-- The lower band boundaries as the spec states them: `n` percentile levels
evenly spaced over `[pmin, 50)` with `50` excluded, ascending. -/
def lowerLevels (pmin : ℚ) (n : Nat) : List ℚ :=
  (List.range n).map (fun i : Nat => pmin + (i : ℚ) * (50 - pmin) / (n : ℚ))

/-- The upper band boundaries as the spec states them: the values of
`linspace(50, pmax, n+1)` with the first point dropped, ascending. -/
def upperLevels (pmax : ℚ) (n : Nat) : List ℚ :=
  (List.range n).map (fun i : Nat => 50 + ((i : ℚ) + 1) * (pmax - 50) / (n : ℚ))

/-! ## Helper lemmas -/

/-- The drawing loop of `spaghetti_plot` either finishes normally or raises
`IndexError`; it never raises a `ValueError`. -/
lemma drawLoop_outcome (x : List ℚ) (y : List (List ℚ)) (kw : Dict) :
    ∀ idxs, (drawLoop x y kw idxs).2 = .ok ()
      ∨ (drawLoop x y kw idxs).2 = .error .indexError := by
  intro idxs
  induction idxs with
  | nil => exact Or.inl rfl
  | cons i rest ih =>
    unfold drawLoop
    cases h : y.get? i with
    | some row => simpa [h] using ih
    | none => simp [h]

/-- When every index is in range, the drawing loop draws one line per index,
in order, and finishes normally. -/
lemma drawLoop_all_inbounds (x : List ℚ) (y : List (List ℚ)) (kw : Dict) :
    ∀ idxs, (∀ i ∈ idxs, i < y.length) →
      drawLoop x y kw idxs
        = (idxs.map (fun i => Artifact.line x (y.getD i []) Option.none kw), .ok ()) := by
  intro idxs hb
  induction idxs with
  | nil => rfl
  | cons i rest ih =>
    have hi : i < y.length := hb i (List.mem_cons_self i rest)
    have hrow : y.get? i = some (y.get ⟨i, hi⟩) := List.get?_eq_get hi
    have hgetD : y.getD i [] = y.get ⟨i, hi⟩ := by
      rw [List.getD_eq_get?, hrow]; rfl
    unfold drawLoop
    rw [hrow, ih (fun j hj => hb j (List.mem_cons_of_mem i hj))]
    rw [List.map_cons, hgetD]

/-- After removing key `k`, looking `k` up in a dict yields nothing. -/
lemma Dict.get?_filter_self (d : Dict) (k : String) :
    Dict.get? (d.filter (fun p => p.1 != k)) k = Option.none := by
  unfold Dict.get?
  rw [List.find?_eq_none.mpr]
  · rfl
  · intro p hp
    have hmem := (List.mem_filter.mp hp).2
    simp only [bne_iff_ne, ne_eq, decide_eq_true_eq] at hmem
    simpa [beq_iff_eq] using hmem

/-- Looking up a key in a non-empty dict inspects the head binding first. -/
lemma Dict.get?_cons (p : String × PyVal) (rest : Dict) (k : String) :
    Dict.get? (p :: rest) k = if p.1 == k then some p.2 else Dict.get? rest k := by
  unfold Dict.get?
  rw [List.find?_cons]
  cases hpk : (p.1 == k) <;> simp [hpk]

/-- Removing key `k'` does not change the binding of a different key `k`. -/
lemma Dict.get?_filter_ne (d : Dict) (k k' : String) (h : k ≠ k') :
    Dict.get? (d.filter (fun p => p.1 != k')) k = Dict.get? d k := by
  induction d with
  | nil => rfl
  | cons p rest ih =>
    rw [List.filter_cons]
    by_cases hp : p.1 = k'
    · have h1 : (p.1 != k') = false := by simp [hp]
      have h2 : (p.1 == k) = false := by
        rw [beq_eq_false_iff_ne]
        intro hc
        exact h (by rw [← hc, hp])
      rw [h1, if_neg (by simp), ih, Dict.get?_cons, h2, if_neg (by simp)]
    · have h1 : (p.1 != k') = true := by simp [hp]
      rw [h1, if_pos rfl, Dict.get?_cons, Dict.get?_cons, ih]

/-- `linspace` always produces `num` points. -/
lemma length_linspace (s e : ℚ) (num : Nat) : (linspace s e num).length = num := by
  unfold linspace
  split
  · simp [*]
  · split
    · simp [*]
    · rw [List.length_map, List.length_range]

/-- `linspace(_, _, _, endpoint=False)` always produces `num` points. -/
lemma length_linspaceNoEnd (s e : ℚ) (num : Nat) :
    (linspaceNoEnd s e num).length = num := by
  unfold linspaceNoEnd
  rw [List.length_map, List.length_range]

/-! ## Claims -/

/-- **C1** (code bug).  The spec says the sampled row indices are drawn from
the row range `[0, N)` of the ensemble `y` of shape `(N, M)`, and the
docstring of `spaghetti_plot` likewise says axis 0 is the samples axis; but
line 38 of the source draws them from `range(y.shape[1])`, the column range
`[0, M)`.  Concretely, for the ensemble `[[0,1,2,3,4],[5,6,7,8,9]]` of shape
`(2, 5)` and a sample count of `1`, the code passes `range(5)` to the random
choice, so the (legitimate, in-range-for-`range(5)`) draw `4` is possible,
and the ensuing row access `y[4]` raises `IndexError`; nothing is drawn. -/
theorem C1_sampling_range_bug :
    spaghetti_plot
        { x := [0, 1, 2, 3, 4], y := [[0, 1, 2, 3, 4], [5, 6, 7, 8, 9]],
          n_samples := some 1, indices := Option.none, plot_kwargs := [] }
        (fun _ _ => [4])
      = { x := [0, 1, 2, 3, 4], y := [[0, 1, 2, 3, 4], [5, 6, 7, 8, 9]],
          drawn := [], outcome := .error .indexError }
    ∧ shape1 [[(0:ℚ), 1, 2, 3, 4], [5, 6, 7, 8, 9]] = 5
    ∧ shape0 [[(0:ℚ), 1, 2, 3, 4], [5, 6, 7, 8, 9]] = 2
    ∧ ¬ 4 < 2 := by
  refine ⟨rfl, rfl, rfl, by decide⟩

/-- **C3** (confirmed).  `spaghetti_plot` raises the configuration
`ValueError` (the spec's `ConfigurationError`), with the module's message,
exactly when the truthiness of the sample count coincides with the presence
of the index set — i.e. when both or neither selection mode is given, a
count of `0` (or `None`) counting as "not given" — and it does so before
anything is drawn; in every other case no such error is raised. -/
theorem C3_configuration_error (a : SpagArgs) (rng : Nat → Nat → List Nat) :
    if a.indices.isSome == pyTruthyNat a.n_samples then
      spaghetti_plot a rng
        = { x := a.x, y := a.y, drawn := [], outcome := .error (.valueError cfgMsg) }
    else (spaghetti_plot a rng).outcome ≠ .error (.valueError cfgMsg) := by
  by_cases h : (a.indices.isSome == pyTruthyNat a.n_samples) = true
  · simp only [h, if_true]
    unfold spaghetti_plot
    simp [h]
  · simp only [h, if_false]
    unfold spaghetti_plot
    simp only [h, if_false]
    rcases drawLoop_outcome a.x a.y a.plot_kwargs
        (if pyTruthyNat a.n_samples then rng (shape1 a.y) (a.n_samples.getD 0)
         else a.indices.getD []) with hok | herr
    · simp [Bool.not_eq_true] at h
      simp [h, hok]
    · simp [Bool.not_eq_true] at h
      simp [h, herr]

/-- **C8** (confirmed).  Neither function mutates its array arguments: the
post-state of every call — including calls that raise — carries the
x-coordinate vector and the sample ensemble unchanged (in particular this
holds for every call that returns normally, which is what the claim
states). -/
theorem C8_no_array_mutation (a : SpagArgs) (rng : Nat → Nat → List Nat)
    (b : RibbonArgs) :
    (spaghetti_plot a rng).x = a.x ∧ (spaghetti_plot a rng).y = a.y
    ∧ (ribbon_plot b).x = b.x ∧ (ribbon_plot b).y = b.y := by
  by_cases hs : (a.indices.isSome == pyTruthyNat a.n_samples) = true <;>
    by_cases h0 : b.n_ribbons = 0 <;>
    by_cases hm : b.plot_median = true <;>
    refine ⟨?_, ?_, ?_, ?_⟩ <;>
    simp [spaghetti_plot, ribbon_plot, hs, h0, hm]

/-- **C9** (confirmed).  With `n_ribbons = 0` the strictly evaluated default
argument of `fill_kwargs.pop('alpha', 1 / n_ribbons)` divides by zero, so the
call raises `ZeroDivisionError` before anything is drawn and before the pop
can touch the dict — even when an `alpha` value is supplied in the
fill-style options, the post-state carries the dict unchanged. -/
theorem C9_zero_ribbons_division_error (b : RibbonArgs) (h : b.n_ribbons = 0) :
    ribbon_plot b
      = { x := b.x, y := b.y, fill_kwargs := b.fill_kwargs,
          line_kwargs := b.line_kwargs, drawn := [],
          outcome := .error .zeroDivisionError } := by
  unfold ribbon_plot
  simp [h]

/-- Witness for C9 at a concrete call that does supply an `alpha`. -/
theorem C9_zero_ribbons_division_error_witness :
    (RibbonArgs.n_ribbons
        { x := [0], y := [[1], [2]], n_ribbons := 0,
          fill_kwargs := [("alpha", PyVal.num (1/2))] } = 0)
    ∧ ribbon_plot
        { x := [0], y := [[1], [2]], n_ribbons := 0,
          fill_kwargs := [("alpha", PyVal.num (1/2))] }
      = { x := [0], y := [[1], [2]],
          fill_kwargs := [("alpha", PyVal.num (1/2))], line_kwargs := [],
          drawn := [], outcome := .error .zeroDivisionError } :=
  ⟨rfl, C9_zero_ribbons_division_error _ rfl⟩

/-- **C10** (confirmed).  On every call that does not take the
`ZeroDivisionError` path, the caller's fill-style dict comes back with the
`alpha` binding removed (when present), with the `step` binding removed
(when present) exactly when `plot_median` is true, and with every other
binding untouched. -/
theorem C10_fill_kwargs_mutation (b : RibbonArgs) (h : b.n_ribbons ≠ 0) :
    (ribbon_plot b).fill_kwargs
      = b.fill_kwargs.filter
          (fun p => p.1 != "alpha" && !(b.plot_median && p.1 == "step")) := by
  unfold ribbon_plot
  simp only [h, if_false, Dict.pop]
  by_cases hm : b.plot_median
  · simp only [hm, if_true, List.filter_filter]
    refine List.filter_congr ?_
    intro p _
    cases hps : (p.1 == "step") <;> cases hpa : (p.1 == "alpha") <;>
      simp only [beq_iff_eq, beq_eq_false_iff_ne, ne_eq] at hps hpa <;>
      simp [hps, hpa]
  · simp only [hm, if_false]
    refine List.filter_congr ?_
    intro p _
    simp [hm]

/-- Witness for C10: a dict holding `alpha`, `step` and an unrelated key
comes back with exactly the unrelated key. -/
theorem C10_fill_kwargs_mutation_witness :
    (RibbonArgs.n_ribbons
        { x := [0], y := [[0], [100]], n_ribbons := 2, plot_median := true,
          fill_kwargs := [("alpha", PyVal.num (1/2)), ("step", PyVal.pybool true),
                          ("lw", PyVal.num 2)] } ≠ 0)
    ∧ (ribbon_plot
        { x := [0], y := [[0], [100]], n_ribbons := 2, plot_median := true,
          fill_kwargs := [("alpha", PyVal.num (1/2)), ("step", PyVal.pybool true),
                          ("lw", PyVal.num 2)] }).fill_kwargs
      = List.filter
          (fun p => p.1 != "alpha" && !(true && p.1 == "step"))
          [("alpha", PyVal.num (1/2)), ("step", PyVal.pybool true),
           ("lw", PyVal.num 2)] :=
  ⟨by decide, C10_fill_kwargs_mutation _ (by decide)⟩

/-- A read at an in-range position does not depend on the default value. -/
lemma getD_indep (l : List ℚ) (n : Nat) (d : ℚ) (h : n < l.length) :
    l.getD n d = l.getD n 0 := by
  rw [List.getD_eq_get?, List.getD_eq_get?, List.get?_eq_get h]
  rfl

/-- The `np.median` formula on sorted data (middle element, or mean of the
two middle elements) agrees with linear interpolation at position
`50 / 100 * (n - 1)`, i.e. with `np.percentile(·, 50)`. -/
lemma percSorted_fifty (s : List ℚ) :
    percSorted s 50
      = (if s.length % 2 = 1 then s.getD (s.length / 2) 0
         else (s.getD (s.length / 2 - 1) 0 + s.getD (s.length / 2) 0) / 2) := by
  rcases Nat.eq_zero_or_pos s.length with h0 | hpos
  · have hsnil : s = [] := List.length_eq_zero.mp h0
    subst hsnil
    unfold percSorted interp
    norm_num
  · rcases Nat.even_or_odd s.length with ⟨m, hm⟩ | ⟨m, hm⟩
    · -- even length `m + m` with `m ≥ 1`
      have hm1 : 1 ≤ m := by omega
      have hq : (50 : ℚ) * ((s.length : ℚ) - 1) / 100 = (m : ℚ) - 1/2 := by
        have hc : (s.length : ℚ) = 2 * (m : ℚ) := by
          rw [hm]; push_cast; ring
        rw [hc]; ring
      have hfl : ⌊(50 : ℚ) * ((s.length : ℚ) - 1) / 100⌋ = (m : ℤ) - 1 := by
        rw [hq, Int.floor_eq_iff]
        constructor
        · push_cast; linarith
        · push_cast; linarith
      have htn : (⌊(50 : ℚ) * ((s.length : ℚ) - 1) / 100⌋).toNat = m - 1 := by
        rw [hfl]; omega
      unfold percSorted interp
      rw [htn]
      have hidx : m - 1 + 1 = m := by omega
      have hmlt : m < s.length := by omega
      have hhi : s.getD (m - 1 + 1) (s.getD (m - 1) 0) = s.getD m 0 := by
        rw [hidx]
        exact getD_indep s m _ hmlt
      have hcast : ((m - 1 : ℕ) : ℚ) = (m : ℚ) - 1 := by
        rw [Nat.cast_sub hm1, Nat.cast_one]
      rw [hhi, hq, hcast, if_neg (by omega)]
      have hdiv : s.length / 2 = m := by omega
      rw [hdiv]
      ring
    · -- odd length `2 m + 1`
      have hq : (50 : ℚ) * ((s.length : ℚ) - 1) / 100 = (m : ℚ) := by
        have hc : (s.length : ℚ) = 2 * (m : ℚ) + 1 := by
          rw [hm]; push_cast; ring
        rw [hc]; ring
      have htn : (⌊(50 : ℚ) * ((s.length : ℚ) - 1) / 100⌋).toNat = m := by
        rw [hq, Int.floor_natCast]; omega
      unfold percSorted interp
      rw [htn, hq, if_pos (by omega)]
      have hdiv : s.length / 2 = m := by omega
      rw [hdiv]
      ring

/-- `np.median` is the 50th percentile under the default (linear)
interpolation. -/
lemma medianOf_eq_percentile50 (l : List ℚ) : medianOf l = percentile l 50 := by
  unfold medianOf percentile
  rw [percSorted_fifty]

/-- The artifacts drawn by a non-raising `ribbon_plot` call: one filled band
per `zip` pair of percentile curves, in drawing order, followed by the
optional median line (step variant when the `step` key of the fill-style
dict is truthy). -/
lemma ribbon_drawn_eq (b : RibbonArgs) (h : b.n_ribbons ≠ 0) :
    (ribbon_plot b).drawn
      = ((List.zip ((linspaceNoEnd b.percentile_min 50 b.n_ribbons).map
              (fun q => percentileAxis0 b.y q (shape1 b.y)))
            (((linspace 50 b.percentile_max (b.n_ribbons + 1)).drop 1).map
              (fun q => percentileAxis0 b.y q (shape1 b.y)))).map
          (fun p => Artifact.fill b.x p.1 p.2
            (((Dict.get? b.fill_kwargs "alpha").getD
                (PyVal.num (1 / (b.n_ribbons : ℚ)))).toNum)
            b.ribbon_color (b.fill_kwargs.filter (fun p => p.1 != "alpha"))))
        ++ (if b.plot_median then
              [(if (((Dict.get? (b.fill_kwargs.filter (fun p => p.1 != "alpha"))
                        "step").getD PyVal.pynone).truthy)
                then Artifact.stepLine b.x (medianAxis0 b.y (shape1 b.y))
                      (some b.line_color) b.line_kwargs
                else Artifact.line b.x (medianAxis0 b.y (shape1 b.y))
                      (some b.line_color) b.line_kwargs)]
            else []) := by
  unfold ribbon_plot
  by_cases hm : b.plot_median <;> simp [h, hm, Dict.pop]

/-- The number of band pairs `zip(perc1, perc2)` iterates over is exactly
`n_ribbons`. -/
lemma ribbon_zip_length (b : RibbonArgs) (h : b.n_ribbons ≠ 0) :
    (List.zip ((linspaceNoEnd b.percentile_min 50 b.n_ribbons).map
          (fun q => percentileAxis0 b.y q (shape1 b.y)))
        (((linspace 50 b.percentile_max (b.n_ribbons + 1)).drop 1).map
          (fun q => percentileAxis0 b.y q (shape1 b.y)))).length
      = b.n_ribbons := by
  rw [List.length_zip, List.length_map, List.length_map, length_linspaceNoEnd,
      List.length_drop, length_linspace]
  omega

/-- **C7** (confirmed).  With an explicit index set (and a falsy sample
count, e.g. `0`, which is the accepted combination), `spaghetti_plot` uses
the given indices verbatim — no deduplication, no bounds check — and, when
they are all in range, draws exactly `len(indices)` lines, the `i`-th being
`y[indices[i]]` against `x`, and returns normally. -/
theorem C7_explicit_indices (a : SpagArgs) (rng : Nat → Nat → List Nat)
    (idxs : List Nat) (hidx : a.indices = some idxs)
    (hs : pyTruthyNat a.n_samples = false)
    (hb : ∀ i ∈ idxs, i < a.y.length) :
    (spaghetti_plot a rng).drawn
        = idxs.map (fun i => Artifact.line a.x (a.y.getD i []) Option.none a.plot_kwargs)
    ∧ (spaghetti_plot a rng).drawn.length = idxs.length
    ∧ (spaghetti_plot a rng).outcome = .ok () := by
  have hloop := drawLoop_all_inbounds a.x a.y a.plot_kwargs idxs hb
  simp [spaghetti_plot, hidx, hs, hloop]

/-- Witness for C7: the spec's concrete scenario — three explicit indices
into a `10 × 3` all-ones ensemble give exactly three `[1,1,1]` lines. -/
theorem C7_explicit_indices_witness :
    (SpagArgs.indices
        { x := [0, 1, 2], y := List.replicate 10 [1, 1, 1],
          n_samples := some 0, indices := some [0, 3, 7] } = some [0, 3, 7])
    ∧ pyTruthyNat (some 0) = false
    ∧ (∀ i ∈ [0, 3, 7], i < (List.replicate 10 ([1, 1, 1] : List ℚ)).length)
    ∧ ((spaghetti_plot
          { x := [0, 1, 2], y := List.replicate 10 [1, 1, 1],
            n_samples := some 0, indices := some [0, 3, 7] }
          (fun _ _ => [])).drawn
        = [0, 3, 7].map (fun i => Artifact.line [0, 1, 2]
            ((List.replicate 10 ([1, 1, 1] : List ℚ)).getD i []) Option.none [])
      ∧ (spaghetti_plot
          { x := [0, 1, 2], y := List.replicate 10 [1, 1, 1],
            n_samples := some 0, indices := some [0, 3, 7] }
          (fun _ _ => [])).drawn.length = [0, 3, 7].length
      ∧ (spaghetti_plot
          { x := [0, 1, 2], y := List.replicate 10 [1, 1, 1],
            n_samples := some 0, indices := some [0, 3, 7] }
          (fun _ _ => [])).outcome = .ok ()) :=
  ⟨rfl, rfl, by decide, C7_explicit_indices _ _ _ rfl rfl (by decide)⟩

/-- **C4** (confirmed).  A non-raising `ribbon_plot` call adds exactly
`n_ribbons` filled regions; every one carries the same alpha — the value
popped from the fill-style dict when an `alpha` key is supplied, else the
default `1 / n_ribbons` — and the style dict forwarded to the fill calls no
longer contains the `alpha` key. -/
theorem C4_fill_count_and_alpha (b : RibbonArgs) (h : b.n_ribbons ≠ 0) :
    (ribbon_plot b).drawn.countP Artifact.isFill = b.n_ribbons
    ∧ (∀ xs lo up al c st, Artifact.fill xs lo up al c st ∈ (ribbon_plot b).drawn →
        al = ((Dict.get? b.fill_kwargs "alpha").getD
                (PyVal.num (1 / (b.n_ribbons : ℚ)))).toNum
          ∧ Dict.get? st "alpha" = Option.none) := by
  rw [ribbon_drawn_eq b h]
  constructor
  · rw [List.countP_append, List.countP_map]
    have hfills : List.countP (Artifact.isFill ∘ fun p : List ℚ × List ℚ =>
        Artifact.fill b.x p.1 p.2
          (((Dict.get? b.fill_kwargs "alpha").getD
              (PyVal.num (1 / (b.n_ribbons : ℚ)))).toNum)
          b.ribbon_color (b.fill_kwargs.filter (fun p => p.1 != "alpha")))
        (List.zip ((linspaceNoEnd b.percentile_min 50 b.n_ribbons).map
            (fun q => percentileAxis0 b.y q (shape1 b.y)))
          (((linspace 50 b.percentile_max (b.n_ribbons + 1)).drop 1).map
            (fun q => percentileAxis0 b.y q (shape1 b.y))))
        = b.n_ribbons := by
      exact (List.countP_eq_length.mpr (fun p _ => rfl)).trans (ribbon_zip_length b h)
    rw [hfills]
    by_cases hm : b.plot_median
    · rw [if_pos hm]
      split <;> simp [Artifact.isFill]
    · simp [hm]
  · intro xs lo up al c st hmem
    rw [List.mem_append] at hmem
    rcases hmem with hfill | hline
    · rcases List.mem_map.mp hfill with ⟨p, _, heq⟩
      cases heq
      exact ⟨rfl, Dict.get?_filter_self _ _⟩
    · exfalso
      by_cases hm : b.plot_median
      · rw [if_pos hm, List.mem_singleton] at hline
        by_cases hf : (((Dict.get? (b.fill_kwargs.filter (fun p => p.1 != "alpha"))
            "step").getD PyVal.pynone).truthy = true)
        · rw [if_pos hf] at hline
          exact Artifact.noConfusion hline
        · rw [if_neg hf] at hline
          exact Artifact.noConfusion hline
      · simp [hm] at hline

/-- Witness for C4: with `n_ribbons = 5` and no fill-style options, five
bands are drawn, every one at the default alpha `1/5 = 0.2`. -/
theorem C4_fill_count_and_alpha_witness :
    (RibbonArgs.n_ribbons
        { x := [0, 1, 2], y := [[0, 0, 0], [100, 100, 100]], n_ribbons := 5 } ≠ 0)
    ∧ ((ribbon_plot
          { x := [0, 1, 2], y := [[0, 0, 0], [100, 100, 100]],
            n_ribbons := 5 }).drawn.countP Artifact.isFill = 5
      ∧ (∀ xs lo up al c st, Artifact.fill xs lo up al c st ∈ (ribbon_plot
            { x := [0, 1, 2], y := [[0, 0, 0], [100, 100, 100]],
              n_ribbons := 5 }).drawn →
          al = ((Dict.get? [] "alpha").getD (PyVal.num (1 / ((5 : Nat) : ℚ)))).toNum
            ∧ Dict.get? st "alpha" = Option.none))
    ∧ ((Dict.get? [] "alpha").getD (PyVal.num (1 / ((5 : Nat) : ℚ)))).toNum = 1/5 :=
  ⟨by decide, C4_fill_count_and_alpha _ (by decide), rfl⟩

/-- **C5** (confirmed).  In a non-raising call, if `plot_median` is true
exactly one line artifact is added beyond the fills: the median curve
(`np.median` along axis 0, which equals the 50th-percentile curve), drawn as
a step line exactly when a truthy `step` key sits in the *fill*-style dict;
if `plot_median` is false, no line artifact is added at all. -/
theorem C5_median_line (b : RibbonArgs) (h : b.n_ribbons ≠ 0) :
    (b.plot_median = true →
      (ribbon_plot b).drawn.filterMap Artifact.lineData?
        = [(((Dict.get? b.fill_kwargs "step").getD PyVal.pynone).truthy,
            medianAxis0 b.y (shape1 b.y))]
      ∧ medianAxis0 b.y (shape1 b.y) = percentileAxis0 b.y 50 (shape1 b.y))
    ∧ (b.plot_median = false →
        (ribbon_plot b).drawn.countP Artifact.isLineArt = 0) := by
  have hstep : Dict.get? (b.fill_kwargs.filter (fun p => p.1 != "alpha")) "step"
      = Dict.get? b.fill_kwargs "step" := Dict.get?_filter_ne _ _ _ (by decide)
  have hmedian : medianAxis0 b.y (shape1 b.y) = percentileAxis0 b.y 50 (shape1 b.y) := by
    unfold medianAxis0 percentileAxis0
    refine List.map_congr_left ?_
    intro j _
    exact medianOf_eq_percentile50 _
  rw [ribbon_drawn_eq b h]
  have hnolines : List.filterMap Artifact.lineData?
      (((List.zip ((linspaceNoEnd b.percentile_min 50 b.n_ribbons).map
            (fun q => percentileAxis0 b.y q (shape1 b.y)))
          (((linspace 50 b.percentile_max (b.n_ribbons + 1)).drop 1).map
            (fun q => percentileAxis0 b.y q (shape1 b.y)))).map
        (fun p => Artifact.fill b.x p.1 p.2
          (((Dict.get? b.fill_kwargs "alpha").getD
              (PyVal.num (1 / (b.n_ribbons : ℚ)))).toNum)
          b.ribbon_color (b.fill_kwargs.filter (fun p => p.1 != "alpha")))))
      = [] := by
    rw [List.filterMap_map]
    rw [List.filterMap_eq_nil]
    intro p _
    rfl
  constructor
  · intro hm
    refine ⟨?_, hmedian⟩
    rw [List.filterMap_append, hnolines, List.nil_append, if_pos hm, hstep]
    by_cases hf : (((Dict.get? b.fill_kwargs "step").getD PyVal.pynone).truthy = true)
    · rw [if_pos hf, hf]
      rfl
    · rw [if_neg hf]
      rw [Bool.not_eq_true] at hf
      rw [hf]
      rfl
  · intro hm
    rw [List.countP_append, List.countP_map]
    have hz : List.countP (Artifact.isLineArt ∘ fun p : List ℚ × List ℚ =>
        Artifact.fill b.x p.1 p.2
          (((Dict.get? b.fill_kwargs "alpha").getD
              (PyVal.num (1 / (b.n_ribbons : ℚ)))).toNum)
          b.ribbon_color (b.fill_kwargs.filter (fun p => p.1 != "alpha")))
        (List.zip ((linspaceNoEnd b.percentile_min 50 b.n_ribbons).map
            (fun q => percentileAxis0 b.y q (shape1 b.y)))
          (((linspace 50 b.percentile_max (b.n_ribbons + 1)).drop 1).map
            (fun q => percentileAxis0 b.y q (shape1 b.y))))
        = 0 := by
      rw [List.countP_eq_zero]
      intro p _
      simp [Artifact.isLineArt]
    rw [hz]
    simp [hm]

/-- Witness for C5: a call with a truthy `step` key in the fill-style dict
yields exactly one step-line median artifact. -/
theorem C5_median_line_witness :
    (RibbonArgs.n_ribbons
        { x := [0], y := [[0], [100]], n_ribbons := 2,
          fill_kwargs := [("step", PyVal.pybool true)] } ≠ 0)
    ∧ ((RibbonArgs.plot_median
          { x := [0], y := [[0], [100]], n_ribbons := 2,
            fill_kwargs := [("step", PyVal.pybool true)] } = true →
        (ribbon_plot
            { x := [0], y := [[0], [100]], n_ribbons := 2,
              fill_kwargs := [("step", PyVal.pybool true)] }).drawn.filterMap
            Artifact.lineData?
          = [(((Dict.get? [("step", PyVal.pybool true)] "step").getD
                PyVal.pynone).truthy,
              medianAxis0 [[0], [100]] (shape1 [[0], [100]]))]
        ∧ medianAxis0 [[0], [100]] (shape1 [[0], [100]])
            = percentileAxis0 [[0], [100]] 50 (shape1 [[0], [100]]))
      ∧ (RibbonArgs.plot_median
          { x := [0], y := [[0], [100]], n_ribbons := 2,
            fill_kwargs := [("step", PyVal.pybool true)] } = false →
        (ribbon_plot
            { x := [0], y := [[0], [100]], n_ribbons := 2,
              fill_kwargs := [("step", PyVal.pybool true)] }).drawn.countP
            Artifact.isLineArt = 0)) :=
  ⟨by decide, C5_median_line _ (by decide)⟩

/-! ## Percentile monotonicity -/

/-- Entries of a `(· ≤ ·)`-sorted list are monotone in the index (for
in-range reads with default `0`). -/
lemma sorted_getD_mono {s : List ℚ} (hs : List.Sorted (· ≤ ·) s) {j k : Nat}
    (hjk : j ≤ k) (hk : k < s.length) : s.getD j 0 ≤ s.getD k 0 := by
  have hj : j < s.length := Nat.lt_of_le_of_lt hjk hk
  rw [List.getD_eq_get?, List.getD_eq_get?, List.get?_eq_get hj, List.get?_eq_get hk]
  simp only [Option.getD_some]
  rcases Nat.lt_or_ge j k with hlt | hge
  · exact hs.rel_get_of_lt (Fin.mk_lt_mk.mpr hlt)
  · have heq : j = k := Nat.le_antisymm hjk hge
    subst heq
    exact le_refl _

/-- The interpolation step of `interp`, spelled out on explicit indices, is
monotone: if `i = ⌊t⌋` and `i' = ⌊t'⌋` with `t ≤ t'` and `i'` in range, the
interpolated value at `t` is at most the one at `t'`. -/
lemma interp_formula_mono {s : List ℚ} (hs : List.Sorted (· ≤ ·) s)
    {i i' : Nat} {t t' : ℚ}
    (hit0 : (i : ℚ) ≤ t) (hit1 : t < (i : ℚ) + 1)
    (hit0' : (i' : ℚ) ≤ t') (htt : t ≤ t') (hii : i ≤ i')
    (hi'n : i' < s.length) :
    s.getD i 0 + (t - (i : ℚ)) * (s.getD (i + 1) (s.getD i 0) - s.getD i 0)
      ≤ s.getD i' 0 + (t' - (i' : ℚ)) * (s.getD (i' + 1) (s.getD i' 0) - s.getD i' 0) := by
  have hiloT : s.getD i 0 ≤ s.getD (i + 1) (s.getD i 0) := by
    by_cases hlt : i + 1 < s.length
    · rw [getD_indep s (i + 1) _ hlt]
      exact sorted_getD_mono hs (Nat.le_succ i) hlt
    · rw [List.getD_eq_default _ _ (Nat.le_of_not_lt hlt)]
  have hiloT' : s.getD i' 0 ≤ s.getD (i' + 1) (s.getD i' 0) := by
    by_cases hlt : i' + 1 < s.length
    · rw [getD_indep s (i' + 1) _ hlt]
      exact sorted_getD_mono hs (Nat.le_succ i') hlt
    · rw [List.getD_eq_default _ _ (Nat.le_of_not_lt hlt)]
  rcases Nat.lt_or_ge i i' with hlt | hge
  · have h1n : i + 1 < s.length := by omega
    have hstep1 : s.getD i 0 + (t - (i : ℚ)) * (s.getD (i + 1) (s.getD i 0) - s.getD i 0)
        ≤ s.getD (i + 1) (s.getD i 0) := by
      nlinarith [mul_nonneg (by linarith : (0:ℚ) ≤ (i : ℚ) + 1 - t)
        (sub_nonneg.mpr hiloT)]
    have hstep2 : s.getD (i + 1) (s.getD i 0) ≤ s.getD i' 0 := by
      rw [getD_indep s (i + 1) _ h1n]
      exact sorted_getD_mono hs (by omega) hi'n
    have hstep3 : s.getD i' 0
        ≤ s.getD i' 0 + (t' - (i' : ℚ)) * (s.getD (i' + 1) (s.getD i' 0) - s.getD i' 0) := by
      nlinarith [mul_nonneg (sub_nonneg.mpr hit0') (sub_nonneg.mpr hiloT')]
    linarith
  · have heq : i = i' := Nat.le_antisymm hii hge
    subst heq
    nlinarith [mul_nonneg (sub_nonneg.mpr htt) (sub_nonneg.mpr hiloT)]

/-- Linear interpolation over a sorted list is monotone in the position, for
positions within `[0, n - 1]`. -/
lemma interp_mono {s : List ℚ} (hs : List.Sorted (· ≤ ·) s) {t t' : ℚ}
    (h0 : 0 ≤ t) (htt : t ≤ t') (htop : t' ≤ (s.length : ℚ) - 1) :
    interp s t ≤ interp s t' := by
  have h0' : 0 ≤ t' := le_trans h0 htt
  have hfl0 : (0 : ℤ) ≤ ⌊t⌋ := Int.le_floor.mpr (by exact_mod_cast h0)
  have hfl0' : (0 : ℤ) ≤ ⌊t'⌋ := Int.le_floor.mpr (by exact_mod_cast h0')
  have hic : (((⌊t⌋).toNat : ℕ) : ℚ) = ((⌊t⌋ : ℤ) : ℚ) := by
    exact_mod_cast congrArg (fun z : ℤ => (z : ℚ)) (Int.toNat_of_nonneg hfl0)
  have hic' : (((⌊t'⌋).toNat : ℕ) : ℚ) = ((⌊t'⌋ : ℤ) : ℚ) := by
    exact_mod_cast congrArg (fun z : ℤ => (z : ℚ)) (Int.toNat_of_nonneg hfl0')
  have hfln : ⌊t'⌋ ≤ (s.length : ℤ) - 1 := by
    have h2 : (⌊t'⌋ : ℚ) ≤ (s.length : ℚ) - 1 := le_trans (Int.floor_le t') htop
    exact_mod_cast h2
  unfold interp
  apply interp_formula_mono hs
  · rw [hic]; exact Int.floor_le t
  · rw [hic]; exact Int.lt_floor_add_one t
  · rw [hic']; exact Int.floor_le t'
  · exact htt
  · exact Int.toNat_le_toNat (Int.floor_mono htt)
  · omega

/-- `np.percentile` of a sorted nonempty sequence is monotone in the
percentile level on `[0, 100]`. -/
lemma percSorted_mono {s : List ℚ} (hs : List.Sorted (· ≤ ·) s) (hne : s ≠ [])
    {q q' : ℚ} (h0 : 0 ≤ q) (hqq : q ≤ q') (h100 : q' ≤ 100) :
    percSorted s q ≤ percSorted s q' := by
  have hlen : 1 ≤ s.length := List.length_pos.mpr hne
  have hlen1 : (0 : ℚ) ≤ (s.length : ℚ) - 1 := by
    have h1 : (1 : ℚ) ≤ (s.length : ℚ) := by exact_mod_cast hlen
    linarith
  unfold percSorted
  apply interp_mono hs
  · exact div_nonneg (mul_nonneg h0 hlen1) (by norm_num)
  · have h1 := mul_le_mul_of_nonneg_right hqq hlen1
    linarith
  · have h1 := mul_le_mul_of_nonneg_right h100 hlen1
    linarith

/-- `np.percentile` of a nonempty array is monotone in the percentile level
on `[0, 100]`. -/
lemma percentile_mono (l : List ℚ) (hne : l ≠ []) {q q' : ℚ}
    (h0 : 0 ≤ q) (hqq : q ≤ q') (h100 : q' ≤ 100) :
    percentile l q ≤ percentile l q' := by
  unfold percentile
  apply percSorted_mono (List.sorted_insertionSort _ l)
  · intro hc
    apply hne
    have hperm := List.perm_insertionSort (fun x1 x2 : ℚ => x1 ≤ x2) l
    rw [hc] at hperm
    exact (hperm.symm.eq_nil)
  · exact h0
  · exact hqq
  · exact h100

/-- The pointwise value of a percentile curve: the column percentile inside
the x-range, `0` (an arbitrary default) outside it. -/
lemma percentileAxis0_getD (y : List (List ℚ)) (q : ℚ) (m j : Nat) :
    (percentileAxis0 y q m).getD j 0
      = if j < m then percentile (column y j) q else 0 := by
  unfold percentileAxis0
  by_cases hj : j < m
  · rw [if_pos hj]
    have hj2 : j < (List.map (fun j => percentile (column y j) q) (List.range m)).length := by
      simpa using hj
    rw [List.getD_eq_get?, List.get?_eq_get hj2, Option.getD_some, List.get_map,
        List.get_range]
  · rw [if_neg hj]
    exact List.getD_eq_default _ _ (by simpa using Nat.le_of_not_lt hj)

/-- Reading a mapped range list at an in-range index gives the function
value at that index. -/
lemma getD_range_map (f : Nat → ℚ) (n i : Nat) (hi : i < n) :
    ((List.range n).map f).getD i 0 = f i := by
  have hlen : i < ((List.range n).map f).length := by simpa using hi
  rw [List.getD_eq_get?, List.get?_eq_get hlen, Option.getD_some, List.get_map,
      List.get_range]

/-! ## The band ladder -/

/-- Dropping the first point of `linspace(s, e, n+1)` leaves the `n` points
`s + (i+1)(e-s)/n`, `i = 0 .. n-1`. -/
lemma linspace_drop_one (s e : ℚ) (n : Nat) (h : n ≠ 0) :
    (linspace s e (n + 1)).drop 1
      = (List.range n).map (fun i : Nat => s + ((i : ℚ) + 1) * (e - s) / (n : ℚ)) := by
  unfold linspace
  rw [if_neg (by omega), if_neg (by omega), List.range_succ_eq_map, List.map_cons,
      List.drop_one, List.tail_cons, List.map_map]
  refine List.map_congr_left ?_
  intro i _
  simp only [Function.comp]
  have hc : ((n + 1 : ℕ) : ℚ) - 1 = (n : ℚ) := by push_cast; ring
  rw [hc]
  push_cast
  ring

/-- The fill artifacts of a non-raising `ribbon_plot` call pair the lower
percentile curves with the upper ones index-by-index (`zip`), both ladders
listed in ascending percentile order. -/
lemma ribbon_fills_eq (b : RibbonArgs) (h : b.n_ribbons ≠ 0) :
    fillsOf (ribbon_plot b).drawn
      = List.zip ((lowerLevels b.percentile_min b.n_ribbons).map
            (fun q => percentileAxis0 b.y q (shape1 b.y)))
          ((upperLevels b.percentile_max b.n_ribbons).map
            (fun q => percentileAxis0 b.y q (shape1 b.y))) := by
  unfold fillsOf
  rw [ribbon_drawn_eq b h, List.filterMap_append]
  have h2 : List.filterMap Artifact.fillBounds?
      (if b.plot_median then
        [(if (((Dict.get? (b.fill_kwargs.filter (fun p => p.1 != "alpha"))
                  "step").getD PyVal.pynone).truthy)
          then Artifact.stepLine b.x (medianAxis0 b.y (shape1 b.y))
                (some b.line_color) b.line_kwargs
          else Artifact.line b.x (medianAxis0 b.y (shape1 b.y))
                (some b.line_color) b.line_kwargs)]
      else []) = [] := by
    by_cases hm : b.plot_median
    · rw [if_pos hm]
      split <;> rfl
    · rw [if_neg hm]
      rfl
  rw [h2, List.append_nil, List.filterMap_map]
  have h4 : ∀ zs : List (List ℚ × List ℚ),
      List.filterMap (Artifact.fillBounds? ∘ fun p : List ℚ × List ℚ =>
        Artifact.fill b.x p.1 p.2
          (((Dict.get? b.fill_kwargs "alpha").getD
              (PyVal.num (1 / (b.n_ribbons : ℚ)))).toNum)
          b.ribbon_color (b.fill_kwargs.filter (fun p => p.1 != "alpha"))) zs = zs := by
    intro zs
    induction zs with
    | nil => rfl
    | cons z rest ih =>
      rw [List.filterMap_cons]
      simp only [Function.comp, Artifact.fillBounds?]
      rw [ih]
  rw [h4, linspace_drop_one 50 b.percentile_max b.n_ribbons h]
  rfl

/-- Every lower boundary level lies in `[0, 50)` (with `0 < pmin < 50`). -/
lemma mem_lowerLevels_bounds {pmin : ℚ} {n : Nat} (hn : n ≠ 0) (h0 : 0 < pmin)
    (h50 : pmin < 50) {q : ℚ} (hq : q ∈ lowerLevels pmin n) : 0 ≤ q ∧ q < 50 := by
  unfold lowerLevels at hq
  rcases List.mem_map.mp hq with ⟨i, hi, rfl⟩
  have hin : i < n := List.mem_range.mp hi
  have hnq : (0 : ℚ) < (n : ℚ) := by exact_mod_cast Nat.pos_of_ne_zero hn
  have hiq : (i : ℚ) < (n : ℚ) := by exact_mod_cast hin
  constructor
  · have h1 : 0 ≤ (i : ℚ) * (50 - pmin) / (n : ℚ) :=
      div_nonneg (mul_nonneg (Nat.cast_nonneg i) (by linarith)) (le_of_lt hnq)
    linarith
  · have h2 : (i : ℚ) * (50 - pmin) / (n : ℚ) < 50 - pmin := by
      rw [div_lt_iff hnq]
      nlinarith
    linarith

/-- Every upper boundary level lies in `(50, pmax]` (with `50 < pmax`). -/
lemma mem_upperLevels_bounds {pmax : ℚ} {n : Nat} (hn : n ≠ 0) (h50 : 50 < pmax)
    {q : ℚ} (hq : q ∈ upperLevels pmax n) : 50 < q ∧ q ≤ pmax := by
  unfold upperLevels at hq
  rcases List.mem_map.mp hq with ⟨i, hi, rfl⟩
  have hin : i < n := List.mem_range.mp hi
  have hnq : (0 : ℚ) < (n : ℚ) := by exact_mod_cast Nat.pos_of_ne_zero hn
  constructor
  · have h1 : 0 < ((i : ℚ) + 1) * (pmax - 50) / (n : ℚ) :=
      div_pos (mul_pos (by positivity) (by linarith)) hnq
    linarith
  · have hi1 : ((i : ℚ) + 1) ≤ (n : ℚ) := by exact_mod_cast Nat.succ_le_of_lt hin
    have h2 : ((i : ℚ) + 1) * (pmax - 50) / (n : ℚ) ≤ pmax - 50 := by
      rw [div_le_iff hnq]
      nlinarith
    linarith

/-- **C2** (corrected).  As claimed, the lower boundaries are `n_ribbons`
levels evenly spaced over `[percentile_min, 50)` ascending, the upper
boundaries are `linspace(50, percentile_max, n_ribbons+1)` minus its first
point, ascending, and the `i`-th band pairs lower boundary `i` with upper
boundary `i`, both in ascending order.  The claim's gloss of that pairing is
however wrong: pairing two ascending ladders index-by-index pairs the
*outermost* lower level (`percentile_min`, drawn first) with the *innermost*
upper level (the first point above 50), so the bands are staggered, not
nested. -/
theorem C2_band_ladder_corrected (b : RibbonArgs) (hn : b.n_ribbons ≠ 0)
    (h1 : b.percentile_min < 50) (h2 : 50 < b.percentile_max) :
    fillsOf (ribbon_plot b).drawn
        = List.zip ((lowerLevels b.percentile_min b.n_ribbons).map
              (fun q => percentileAxis0 b.y q (shape1 b.y)))
            ((upperLevels b.percentile_max b.n_ribbons).map
              (fun q => percentileAxis0 b.y q (shape1 b.y)))
    ∧ List.Pairwise (· < ·) (lowerLevels b.percentile_min b.n_ribbons)
    ∧ List.Pairwise (· < ·) (upperLevels b.percentile_max b.n_ribbons)
    ∧ (∀ q ∈ lowerLevels b.percentile_min b.n_ribbons, q < 50)
    ∧ (∀ q ∈ upperLevels b.percentile_max b.n_ribbons, 50 < q)
    ∧ (lowerLevels b.percentile_min b.n_ribbons).getD 0 0 = b.percentile_min
    ∧ (upperLevels b.percentile_max b.n_ribbons).getD 0 0
        = 50 + (b.percentile_max - 50) / (b.n_ribbons : ℚ) := by
  have hnq : (0 : ℚ) < (b.n_ribbons : ℚ) := by
    exact_mod_cast Nat.pos_of_ne_zero hn
  refine ⟨ribbon_fills_eq b hn, ?_, ?_, ?_, ?_, ?_, ?_⟩
  · unfold lowerLevels
    rw [List.pairwise_map]
    refine (List.pairwise_lt_range _).imp ?_
    intro a c hac
    have hac' : (a : ℚ) < (c : ℚ) := by exact_mod_cast hac
    have hmul : (a : ℚ) * (50 - b.percentile_min) < (c : ℚ) * (50 - b.percentile_min) :=
      mul_lt_mul_of_pos_right hac' (by linarith)
    have hdiv := (div_lt_div_iff_of_pos_right hnq).mpr hmul
    linarith
  · unfold upperLevels
    rw [List.pairwise_map]
    refine (List.pairwise_lt_range _).imp ?_
    intro a c hac
    have hac' : (a : ℚ) + 1 < (c : ℚ) + 1 := by
      have h3 : (a : ℚ) < (c : ℚ) := by exact_mod_cast hac
      linarith
    have hmul : ((a : ℚ) + 1) * (b.percentile_max - 50)
        < ((c : ℚ) + 1) * (b.percentile_max - 50) :=
      mul_lt_mul_of_pos_right hac' (by linarith)
    have hdiv := (div_lt_div_iff_of_pos_right hnq).mpr hmul
    linarith
  · intro q hq
    unfold lowerLevels at hq
    rcases List.mem_map.mp hq with ⟨i, hi, rfl⟩
    have hin : i < b.n_ribbons := List.mem_range.mp hi
    have hiq : (i : ℚ) < (b.n_ribbons : ℚ) := by exact_mod_cast hin
    have h3 : (i : ℚ) * (50 - b.percentile_min) / (b.n_ribbons : ℚ)
        < 50 - b.percentile_min := by
      rw [div_lt_iff hnq]
      nlinarith
    linarith
  · intro q hq
    exact (mem_upperLevels_bounds hn h2 hq).1
  · have h0n : 0 < b.n_ribbons := Nat.pos_of_ne_zero hn
    unfold lowerLevels
    rw [getD_range_map _ _ _ h0n]
    norm_num
  · have h0n : 0 < b.n_ribbons := Nat.pos_of_ne_zero hn
    unfold upperLevels
    rw [getD_range_map _ _ _ h0n]
    norm_num

/-- Counterexample for C2 as stated: with two ribbons, bounds 10/90 and the
two-sample ensemble `[[0],[100]]` (whose percentile curve at level `q` is
exactly `[q]`), the bands drawn are `(10,70)` and `(30,90)` — the claimed
nested pairs `(30,70)` (innermost with innermost) and `(10,90)` (outermost
with outermost) are not drawn. -/
theorem C2_pairing_counterexample :
    fillsOf (ribbon_plot { x := [0], y := [[0], [100]], n_ribbons := 2, percentile_min := 10, percentile_max := 90 }).drawn
      = [([10], [70]), ([30], [90])]
    ∧ ([30], [70]) ∉ fillsOf (ribbon_plot { x := [0], y := [[0], [100]], n_ribbons := 2, percentile_min := 10, percentile_max := 90 }).drawn
    ∧ ([10], [90]) ∉ fillsOf (ribbon_plot { x := [0], y := [[0], [100]], n_ribbons := 2, percentile_min := 10, percentile_max := 90 }).drawn := by
  have hval : fillsOf (ribbon_plot { x := [0], y := [[0], [100]], n_ribbons := 2, percentile_min := 10, percentile_max := 90 }).drawn
      = [([10], [70]), ([30], [90])] := by
    rw [ribbon_fills_eq _ (by decide)]
    norm_num [lowerLevels, upperLevels, percentileAxis0, percentile, percSorted,
      interp, column, List.insertionSort, List.orderedInsert, shape1,
      List.range_succ, List.zip, List.zipWith]
  refine ⟨hval, ?_, ?_⟩ <;> rw [hval] <;> norm_num

/-- Witness for the corrected C2 at `n_ribbons = 2`, bounds `10`/`90`. -/
theorem C2_band_ladder_corrected_witness :
    (RibbonArgs.n_ribbons { x := [0], y := [[0], [100]], n_ribbons := 2, percentile_min := 10, percentile_max := 90 } ≠ 0)
    ∧ (RibbonArgs.percentile_min { x := [0], y := [[0], [100]], n_ribbons := 2, percentile_min := 10, percentile_max := 90 } < 50)
    ∧ (50 < RibbonArgs.percentile_max { x := [0], y := [[0], [100]], n_ribbons := 2, percentile_min := 10, percentile_max := 90 })
    ∧ (fillsOf (ribbon_plot { x := [0], y := [[0], [100]], n_ribbons := 2, percentile_min := 10, percentile_max := 90 }).drawn
        = List.zip ((lowerLevels 10 2).map (fun q =>
              percentileAxis0 [[0], [100]] q (shape1 [[0], [100]])))
            ((upperLevels 90 2).map (fun q =>
              percentileAxis0 [[0], [100]] q (shape1 [[0], [100]])))
      ∧ List.Pairwise (· < ·) (lowerLevels 10 2)
      ∧ List.Pairwise (· < ·) (upperLevels 90 2)
      ∧ (∀ q ∈ lowerLevels 10 2, q < 50)
      ∧ (∀ q ∈ upperLevels 90 2, 50 < q)
      ∧ (lowerLevels 10 2).getD 0 0 = 10
      ∧ (upperLevels 90 2).getD 0 0 = 50 + (90 - 50) / ((2 : Nat) : ℚ)) :=
  ⟨by decide, by decide, by decide,
   C2_band_ladder_corrected _ (by decide) (by decide) (by decide)⟩

/-- **C6** (confirmed).  For valid percentile bounds and at least one ribbon
and one sample row, every band drawn has its lower percentile curve
pointwise at most its upper percentile curve: the lower level is `< 50`,
the upper `> 50`, and `np.percentile` is monotone in the level. -/
theorem C6_bands_never_invert (b : RibbonArgs)
    (hn : 1 ≤ b.n_ribbons) (hpm0 : 0 < b.percentile_min)
    (hpm : b.percentile_min < 50) (hpx : 50 < b.percentile_max)
    (hpx1 : b.percentile_max < 100) (hy : b.y ≠ []) :
    ∀ pr ∈ fillsOf (ribbon_plot b).drawn, ∀ j : Nat,
      pr.1.getD j 0 ≤ pr.2.getD j 0 := by
  have hn0 : b.n_ribbons ≠ 0 := by omega
  intro pr hpr j
  obtain ⟨lo, up⟩ := pr
  rw [ribbon_fills_eq b hn0] at hpr
  obtain ⟨hlo, hup⟩ := List.of_mem_zip hpr
  rcases List.mem_map.mp hlo with ⟨q1, hq1mem, rfl⟩
  rcases List.mem_map.mp hup with ⟨q2, hq2mem, rfl⟩
  obtain ⟨hq1a, hq1b⟩ := mem_lowerLevels_bounds hn0 hpm0 hpm hq1mem
  obtain ⟨hq2a, hq2b⟩ := mem_upperLevels_bounds hn0 hpx hq2mem
  simp only
  rw [percentileAxis0_getD, percentileAxis0_getD]
  by_cases hj : j < shape1 b.y
  · rw [if_pos hj, if_pos hj]
    have hcol : column b.y j ≠ [] := by
      unfold column
      intro hc
      exact hy (List.map_eq_nil.mp hc)
    exact percentile_mono (column b.y j) hcol hq1a (by linarith) (by linarith)
  · rw [if_neg hj, if_neg hj]

/-- Witness for C6 with the default ribbon parameters on a two-sample
ensemble. -/
theorem C6_bands_never_invert_witness :
    (1 ≤ RibbonArgs.n_ribbons { x := [0], y := ([[0], [100]] : List (List ℚ)) })
    ∧ (0 < RibbonArgs.percentile_min { x := [0], y := ([[0], [100]] : List (List ℚ)) })
    ∧ (RibbonArgs.percentile_min { x := [0], y := ([[0], [100]] : List (List ℚ)) } < 50)
    ∧ (50 < RibbonArgs.percentile_max { x := [0], y := ([[0], [100]] : List (List ℚ)) })
    ∧ (RibbonArgs.percentile_max { x := [0], y := ([[0], [100]] : List (List ℚ)) } < 100)
    ∧ (RibbonArgs.y { x := [0], y := ([[0], [100]] : List (List ℚ)) } ≠ [])
    ∧ ∀ pr ∈ fillsOf (ribbon_plot { x := [0], y := ([[0], [100]] : List (List ℚ)) }).drawn,
        ∀ j : Nat, pr.1.getD j 0 ≤ pr.2.getD j 0 :=
  ⟨by decide, by decide, by decide, by decide, by decide, by decide,
   C6_bands_never_invert _ (by decide) (by decide) (by decide) (by decide)
     (by decide) (by decide)⟩

end CustomPlotting
